import Mathlib

/-
Shallow embedding of the Milvus write-buffer component
(src/core/src/db/insert/MemTableFile.cpp, class milvus::engine::MemTableFile).

Machine integers of type size_t are modelled as Nat with explicit reduction
modulo 2 ^ 64 wherever the source performs size_t arithmetic that can wrap
(the subtraction in GetMemLeft, the accumulation in Add, the product in
IsFull).  External collaborators (the catalog, the vector source, the
segment writer) appear as explicit parameters carrying their observable
results, exactly as the source consumes them.
-/

/-- Modulus of the 64-bit size_t arithmetic used throughout the source,
that is 2 ^ 64. -/
def SIZE_T_MOD : Nat := 18446744073709551616

/-- Byte width of one float element (FLOAT_TYPE_SIZE, sizeof(float)). -/
def FLOAT_TYPE_SIZE : Nat := 4

/-- Byte width of one binary-vector element (sizeof(uint8_t)). -/
def UINT8_TYPE_SIZE : Nat := 1

/-- Modelled from the spec: the numeric error code DB_ERROR used by
MemTableFile::Add (the status-code header is not part of the source under
verification; only its distinctness from success matters). -/
def DB_ERROR : Nat := 1

/-- The milvus Status result value: success, or an error code with message. -/
inductive Status where
  | ok : Status
  | err : Nat → String → Status
deriving DecidableEq

/-- status.ok() of the source. -/
def Status.IsOk : Status → Bool
  | .ok => true
  | .err _ _ => false

/-- Engine types referenced by MemTableFile::Serialize (EngineType enum). -/
inductive EngineType where
  | INVALID
  | FAISS_IDMAP
  | FAISS_IVFFLAT
  | FAISS_IVFSQ8
  | FAISS_BIN_IDMAP
  | FAISS_BIN_IVFFLAT
deriving DecidableEq

/-- Metric types referenced by MemTableFile::Delete (MetricType enum). -/
inductive MetricType where
  | L2
  | IP
  | HAMMING
  | JACCARD
  | TANIMOTO
deriving DecidableEq

/-- Modelled from the spec: server::ValidationUtil::IsBinaryMetricType
(ValidationUtil is not part of the source under verification; the spec
says binary metric types use a 1-byte element, standard ones a 4-byte
element). -/
def IsBinaryMetricType : MetricType → Bool
  | .HAMMING => true
  | .JACCARD => true
  | .TANIMOTO => true
  | _ => false

/-- File classification states of meta::TableFileSchema used here. -/
inductive FileType where
  | NEW
  | RAW
  | TO_INDEX
deriving DecidableEq

/-- The fields of meta::TableFileSchema that MemTableFile reads or writes. -/
structure TableFileSchema where
  table_id : String
  dimension : Nat
  engine_type : EngineType
  metric_type : MetricType
  index_file_size : Nat
  file_type : FileType
deriving DecidableEq

/-- Modelled from the spec: one per-group buffer of the segment, a parallel
buffer of logical ids and payload bytes, supporting GetUids and
Erase(offset, elementWidth) which removes the id at the offset and the
elementWidth payload bytes starting at offset * elementWidth. -/
structure VectorsBuffer where
  uids : List Int
  data : List Nat
deriving DecidableEq

/-- Modelled from the spec: the segment owned by the segment writer, a
mapping from group identifier to a vectors buffer plus the ordered
tombstone list of deleted ids (AddDeleteDoc appends to it). -/
structure Segment where
  vectors : List (String × VectorsBuffer)
  deleted_docs : List Int
deriving DecidableEq

/-- The state of one MemTableFile object: its schema record, the byte
counter current_mem_, and the segment behind segment_writer_ptr_. -/
structure MemTableFileState where
  table_file_schema : TableFileSchema
  current_mem : Nat
  segment : Segment
deriving DecidableEq

/-- The observable outcome of one VectorSource::Add call: the returned
status, the number of vectors actually added, and the segment contents
after the delegated write. -/
structure SourceResult where
  status : Status
  num_vectors_added : Nat
  segment : Segment

/-- The vector source collaborator as MemTableFile::Add consumes it:
SingleVectorSize(dimension) and the delegated Add(requested, segment). -/
structure VectorSource where
  SingleVectorSize : Nat → Nat
  Add : Nat → Segment → SourceResult

/-- The constructor state: current_mem_ = 0 and a fresh segment writer. -/
def MemTableFile.init (schema : TableFileSchema) : MemTableFileState :=
  { table_file_schema := schema
    current_mem := 0
    segment := { vectors := [], deleted_docs := [] } }

/-- MemTableFile::GetCurrentMem. -/
def MemTableFile.GetCurrentMem (s : MemTableFileState) : Nat :=
  s.current_mem

/-- MemTableFile::GetMemLeft: the size_t difference
MAX_TABLE_FILE_MEM - current_mem_.  The budget MAX_TABLE_FILE_MEM is a
configuration value passed explicitly (its defining header is not part of
the source under verification; the spec supplies it as configuration). -/
def MemTableFile.GetMemLeft (budget : Nat) (s : MemTableFileState) : Nat :=
  (budget % SIZE_T_MOD + (SIZE_T_MOD - s.current_mem % SIZE_T_MOD)) % SIZE_T_MOD

/-- MemTableFile::IsFull: GetMemLeft() < dimension_ * FLOAT_TYPE_SIZE,
with the product taken in size_t.  Note the source uses FLOAT_TYPE_SIZE
here for every metric type. -/
def MemTableFile.IsFull (budget : Nat) (s : MemTableFileState) : Bool :=
  MemTableFile.GetMemLeft budget s < s.table_file_schema.dimension * FLOAT_TYPE_SIZE % SIZE_T_MOD

/-- The admission count of MemTableFile::Add:
std::ceil(mem_left / single_vector_mem_size).  The division is size_t
division, already truncated; the result is then taken through ceil (the
source converts it to double first, which is exact for the magnitudes a
size_t budget can reach here, so the rational ceiling models it). -/
def NumVectorsToAdd (mem_left single_vector_mem_size : Nat) : Nat :=
  Nat.ceil ((mem_left / single_vector_mem_size : Nat) : ℚ)

/-- MemTableFile::Add. -/
def MemTableFile.Add (budget : Nat) (source : VectorSource) (s : MemTableFileState) :
    Status × MemTableFileState :=
  if s.table_file_schema.dimension = 0 then
    (Status.err DB_ERROR "Not able to create table file", s)
  else
    let single_vector_mem_size := source.SingleVectorSize s.table_file_schema.dimension
    let mem_left := MemTableFile.GetMemLeft budget s
    if single_vector_mem_size ≤ mem_left then
      let r := source.Add (NumVectorsToAdd mem_left single_vector_mem_size) s.segment
      if r.status.IsOk then
        (r.status,
          { s with
            current_mem :=
              (s.current_mem + r.num_vectors_added * single_vector_mem_size) % SIZE_T_MOD
            segment := r.segment })
      else
        (r.status, { s with segment := r.segment })
    else
      (Status.ok, s)

/-- The erase step of MemTableFile::Delete on one group: std::find over the
ids, and on a hit, Erase(offset, vector_type_size) removes the id at the
offset and the vector_type_size payload bytes at offset * vector_type_size
(Erase is modelled from the spec, see VectorsBuffer). -/
def DeleteFromBuffer (vector_type_size : Nat) (doc_id : Int) (buf : VectorsBuffer) :
    VectorsBuffer :=
  let offset := buf.uids.indexOf doc_id
  if offset < buf.uids.length then
    { uids := buf.uids.eraseIdx offset
      data := buf.data.take (offset * vector_type_size) ++
              buf.data.drop (offset * vector_type_size + vector_type_size) }
  else
    buf

/-- The local vector_type_size of MemTableFile::Delete: sizeof(uint8_t)
for binary metric types, sizeof(float) otherwise. -/
def VectorTypeSize (metric : MetricType) : Nat :=
  if IsBinaryMetricType metric then UINT8_TYPE_SIZE else FLOAT_TYPE_SIZE

/-- MemTableFile::Delete: pick the element width from the metric type,
scan every group for the id and erase a hit, then append the id to the
deleted-docs list. -/
def MemTableFile.Delete (s : MemTableFileState) (doc_id : Int) :
    Status × MemTableFileState :=
  let vector_type_size := VectorTypeSize s.table_file_schema.metric_type
  let seg := s.segment
  (Status.ok,
    { s with
      segment :=
        { vectors := seg.vectors.map fun g => (g.1, DeleteFromBuffer vector_type_size doc_id g.2)
          deleted_docs := seg.deleted_docs ++ [doc_id] } })

/-- MemTableFile::Serialize.  The two collaborator outcomes are passed in:
the status of segment_writer_ptr_->Serialize() (which the source computes
and then discards) and the status of meta_->UpdateTableFile (which the
source returns).  The classification of the file is the only schema
mutation. -/
def MemTableFile.Serialize (_writer_serialize_status : Status)
    (update_table_file_status : Status) (s : MemTableFileState) :
    Status × MemTableFileState :=
  let size := MemTableFile.GetCurrentMem s
  let file_type :=
    if s.table_file_schema.engine_type ≠ EngineType.FAISS_IDMAP ∧
       s.table_file_schema.engine_type ≠ EngineType.FAISS_BIN_IDMAP then
      if s.table_file_schema.index_file_size ≤ size then FileType.TO_INDEX else FileType.RAW
    else
      FileType.RAW
  (update_table_file_status,
    { s with table_file_schema := { s.table_file_schema with file_type := file_type } })

/-- Modelled from the spec: bytesPerVector(dimension), a fixed per-element
width (4 bytes for standard metric types, 1 byte for binary metric types)
times the dimension.  Stated for comparison with MemTableFile.IsFull. -/
def BytesPerVector (metric : MetricType) (dimension : Nat) : Nat :=
  (if IsBinaryMetricType metric then UINT8_TYPE_SIZE else FLOAT_TYPE_SIZE) * dimension

/-- A source stating that every vector source admits at most the number of
vectors requested of it, and that one vector at a positive dimension
occupies at least one byte. -/
def WellBehavedSource (dimension : Nat) (source : VectorSource) : Prop :=
  0 < source.SingleVectorSize dimension ∧
  ∀ n seg, (source.Add n seg).num_vectors_added ≤ n

/-- A sequence of MemTableFile::Add calls, folded over the object state. -/
def RunAdds (budget : Nat) (calls : List VectorSource) (s : MemTableFileState) :
    MemTableFileState :=
  calls.foldl (fun st source => (MemTableFile.Add budget source st).2) s

/-- A schema record with the identity fields fixed, for concrete runs. -/
def exampleSchema (dimension : Nat) (engine : EngineType) (metric : MetricType)
    (index_file_size : Nat) : TableFileSchema :=
  { table_id := "table"
    dimension := dimension
    engine_type := engine
    metric_type := metric
    index_file_size := index_file_size
    file_type := FileType.NEW }

/-- A vector source that supplies exactly the requested number of vectors,
at four bytes per element, and leaves the segment contents alone. -/
def okSource : VectorSource :=
  { SingleVectorSize := fun dimension => dimension * FLOAT_TYPE_SIZE
    Add := fun n seg => { status := Status.ok, num_vectors_added := n, segment := seg } }

/-- A fresh buffer over a 4-dimensional standard-metric table. -/
def freshState4 : MemTableFileState :=
  MemTableFile.init (exampleSchema 4 EngineType.FAISS_IVFFLAT MetricType.L2 1000)

/-- A buffer over a 0-dimensional table, as left by a failed
construction-time catalog call. -/
def zeroDimState : MemTableFileState :=
  MemTableFile.init (exampleSchema 0 EngineType.FAISS_IVFFLAT MetricType.L2 1000)

/-- A binary-metric buffer with 98 of 100 budget bytes used. -/
def binaryNearFullState : MemTableFileState :=
  { table_file_schema := exampleSchema 1 EngineType.FAISS_BIN_IVFFLAT MetricType.HAMMING 1000
    current_mem := 98
    segment := { vectors := [], deleted_docs := [] } }

/-- A standard-metric buffer with 98 of 100 budget bytes used. -/
def standardNearFullState : MemTableFileState :=
  { table_file_schema := exampleSchema 1 EngineType.FAISS_IVFFLAT MetricType.L2 1000
    current_mem := 98
    segment := { vectors := [], deleted_docs := [] } }

/-- A buffer holding 32 counted bytes over a non-identity-map engine whose
index threshold is 10 bytes. -/
def toIndexSizedState : MemTableFileState :=
  { table_file_schema := exampleSchema 4 EngineType.FAISS_IVFFLAT MetricType.L2 10
    current_mem := 32
    segment := { vectors := [], deleted_docs := [] } }

/-- A buffer whose live segment holds one group with the logical ids 3 and
7 and eight payload bytes, two four-byte vectors. -/
def twoVectorState : MemTableFileState :=
  { table_file_schema := exampleSchema 1 EngineType.FAISS_IVFFLAT MetricType.L2 1000
    current_mem := 8
    segment :=
      { vectors := [("group", { uids := [3, 7], data := [0, 1, 2, 3, 4, 5, 6, 7] })]
        deleted_docs := [] } }


theorem SIZE_T_MOD_eq_two_pow : SIZE_T_MOD = 2 ^ 64 := by norm_num [SIZE_T_MOD]

/-- The ceiling in the admission count is applied to an already-truncated
integer quotient, so it is the identity: the count is the floor. -/
theorem numVectorsToAdd_eq_div (mem_left single_vector_mem_size : Nat) :
    NumVectorsToAdd mem_left single_vector_mem_size =
      mem_left / single_vector_mem_size :=
  Nat.ceil_natCast _

/-- Under the budget invariant the size_t subtraction in GetMemLeft is the
plain difference. -/
theorem getMemLeft_eq_sub (budget : Nat) (s : MemTableFileState)
    (hcur : s.current_mem ≤ budget) (hb : budget < SIZE_T_MOD) :
    MemTableFile.GetMemLeft budget s = budget - s.current_mem := by
  unfold MemTableFile.GetMemLeft
  unfold SIZE_T_MOD at hb ⊢
  omega

/-- Claim C9: an Add call on a buffer whose schema dimension is not
positive fails with the DB_ERROR configuration error and mutates neither
the counter nor the segment writer (the whole state is returned
unchanged). -/
theorem add_zero_dimension_rejected (budget : Nat) (source : VectorSource)
    (s : MemTableFileState) (hdim : s.table_file_schema.dimension = 0) :
    MemTableFile.Add budget source s =
      (Status.err DB_ERROR "Not able to create table file", s) := by
  simp [MemTableFile.Add, hdim]

/-- Witness for claim C9 on a concrete zero-dimension buffer. -/
theorem add_zero_dimension_rejected_witness :
    MemTableFile.Add 100 okSource zeroDimState =
      (Status.err DB_ERROR "Not able to create table file", zeroDimState) :=
  add_zero_dimension_rejected 100 okSource zeroDimState (by decide)

/-- Claim C3: when the remaining budget is below the per-vector size, Add
admits nothing, returns success, and leaves the whole state (counter and
segment buffers) unchanged. -/
theorem add_no_capacity_noop (budget : Nat) (source : VectorSource)
    (s : MemTableFileState) (hdim : s.table_file_schema.dimension ≠ 0)
    (hleft : MemTableFile.GetMemLeft budget s <
      source.SingleVectorSize s.table_file_schema.dimension) :
    MemTableFile.Add budget source s = (Status.ok, s) := by
  simp [MemTableFile.Add, hdim, Nat.not_le.mpr hleft]

/-- Witness for claim C3: a 4-dimensional buffer with 10 bytes of budget
cannot hold one 16-byte vector. -/
theorem add_no_capacity_noop_witness :
    MemTableFile.Add 10 okSource freshState4 = (Status.ok, freshState4) :=
  add_no_capacity_noop 10 okSource freshState4 (by decide) (by decide)

/-- Claim C10: Delete never changes the byte counter, so currentUsage
after a delete equals currentUsage before, and the flush-time
classification computed by Serialize is the same with or without the
preceding delete. -/
theorem delete_preserves_counter (s : MemTableFileState) (doc_id : Int)
    (ws us : Status) :
    (MemTableFile.Delete s doc_id).2.current_mem = s.current_mem ∧
    MemTableFile.GetCurrentMem (MemTableFile.Delete s doc_id).2 =
      MemTableFile.GetCurrentMem s ∧
    (MemTableFile.Serialize ws us
        (MemTableFile.Delete s doc_id).2).2.table_file_schema.file_type =
      (MemTableFile.Serialize ws us s).2.table_file_schema.file_type :=
  ⟨rfl, rfl, rfl⟩

/-- Claim C7: the source discards the status of the segment writer
Serialize call; with a failing durable write and a succeeding catalog
update, MemTableFile::Serialize still returns success, and its outcome is
identical to the one of a run whose durable write succeeded. -/
theorem serialize_ignores_writer_failure :
    (MemTableFile.Serialize (Status.err 1 "Serialize failed") Status.ok
        toIndexSizedState).1 = Status.ok ∧
    MemTableFile.Serialize (Status.err 1 "Serialize failed") Status.ok toIndexSizedState =
      MemTableFile.Serialize Status.ok Status.ok toIndexSizedState :=
  ⟨rfl, rfl⟩

/-- Claim C6: the classification written by Serialize is RAW for the
identity-map engine family regardless of size, and otherwise TO_INDEX
exactly when the snapshot size reaches the index-file-size threshold. -/
theorem serialize_classification (ws us : Status) (s : MemTableFileState) :
    ((s.table_file_schema.engine_type = EngineType.FAISS_IDMAP ∨
      s.table_file_schema.engine_type = EngineType.FAISS_BIN_IDMAP) →
      (MemTableFile.Serialize ws us s).2.table_file_schema.file_type = FileType.RAW) ∧
    (s.table_file_schema.engine_type ≠ EngineType.FAISS_IDMAP →
      s.table_file_schema.engine_type ≠ EngineType.FAISS_BIN_IDMAP →
      (((MemTableFile.Serialize ws us s).2.table_file_schema.file_type = FileType.TO_INDEX ↔
        s.table_file_schema.index_file_size ≤ MemTableFile.GetCurrentMem s) ∧
       ((MemTableFile.Serialize ws us s).2.table_file_schema.file_type = FileType.RAW ↔
        MemTableFile.GetCurrentMem s < s.table_file_schema.index_file_size))) := by
  constructor
  · intro h
    rcases h with h | h <;> simp [MemTableFile.Serialize, h]
  · intro h1 h2
    by_cases hsize : s.table_file_schema.index_file_size ≤ MemTableFile.GetCurrentMem s <;>
      simp [MemTableFile.Serialize, MemTableFile.GetCurrentMem, h1, h2, hsize]

/-- Witness for claim C6: a 32-byte buffer over a non-identity-map engine
with a 10-byte threshold is classified TO_INDEX. -/
theorem serialize_classification_witness :
    (MemTableFile.Serialize Status.ok Status.ok
        toIndexSizedState).2.table_file_schema.file_type = FileType.TO_INDEX :=
  ((serialize_classification Status.ok Status.ok toIndexSizedState).2
      (by decide) (by decide)).1.mpr (by decide)

/-- Counterexample to claim C4: on a binary-metric table with dimension 1
and 2 bytes of remaining budget, IsFull answers true, but the claimed
formula remaining < bytesPerVector with the 1-byte binary element width
answers false; the source always uses the 4-byte float width. -/
theorem isfull_binary_width_counterexample :
    MemTableFile.IsFull 100 binaryNearFullState = true ∧
    ¬ (MemTableFile.GetMemLeft 100 binaryNearFullState <
        BytesPerVector binaryNearFullState.table_file_schema.metric_type
          binaryNearFullState.table_file_schema.dimension) := by
  constructor
  · decide
  · decide

/-- Claim C4 as amended: IsFull is true iff the remaining budget is below
dimension * FLOAT_TYPE_SIZE for every metric type; the spec formula
bytesPerVector agrees with it only on the standard (non-binary) metric
types. -/
theorem isfull_uses_float_width (budget : Nat) (s : MemTableFileState)
    (hdim : s.table_file_schema.dimension * FLOAT_TYPE_SIZE < SIZE_T_MOD) :
    (MemTableFile.IsFull budget s = true ↔
      MemTableFile.GetMemLeft budget s <
        s.table_file_schema.dimension * FLOAT_TYPE_SIZE) ∧
    (IsBinaryMetricType s.table_file_schema.metric_type = false →
      (MemTableFile.IsFull budget s = true ↔
        MemTableFile.GetMemLeft budget s <
          BytesPerVector s.table_file_schema.metric_type
            s.table_file_schema.dimension)) := by
  have hmod : s.table_file_schema.dimension * FLOAT_TYPE_SIZE % SIZE_T_MOD =
      s.table_file_schema.dimension * FLOAT_TYPE_SIZE := Nat.mod_eq_of_lt hdim
  constructor
  · simp [MemTableFile.IsFull, hmod]
  · intro hb
    have hspec : BytesPerVector s.table_file_schema.metric_type
        s.table_file_schema.dimension =
        s.table_file_schema.dimension * FLOAT_TYPE_SIZE := by
      simp [BytesPerVector, hb, Nat.mul_comm]
    rw [hspec]
    simp [MemTableFile.IsFull, hmod]

/-- Witness for the amended claim C4 on a concrete standard-metric
buffer: dimension 1 and 2 remaining bytes mean the buffer is full. -/
theorem isfull_uses_float_width_witness :
    MemTableFile.IsFull 100 standardNearFullState = true ↔
      MemTableFile.GetMemLeft 100 standardNearFullState <
        standardNearFullState.table_file_schema.dimension * FLOAT_TYPE_SIZE :=
  (isfull_uses_float_width 100 standardNearFullState (by decide)).1

/-- Counterexample to claim C8: after a successful Serialize on a fresh
4-dimensional buffer, a further Add call is not rejected: it returns
success, raises the counter from 0 to 64, and a further Delete call also
returns success. -/
theorem add_after_serialize_accepted :
    (MemTableFile.Serialize Status.ok Status.ok freshState4).1 = Status.ok ∧
    (MemTableFile.Add 64 okSource
        (MemTableFile.Serialize Status.ok Status.ok freshState4).2).1 = Status.ok ∧
    (MemTableFile.Serialize Status.ok Status.ok freshState4).2.current_mem = 0 ∧
    (MemTableFile.Add 64 okSource
        (MemTableFile.Serialize Status.ok Status.ok freshState4).2).2.current_mem = 64 ∧
    (MemTableFile.Delete
        (MemTableFile.Serialize Status.ok Status.ok freshState4).2 5).1 = Status.ok := by
  refine ⟨rfl, ?_, rfl, ?_, rfl⟩ <;> decide

/-- Claim C8 as amended: flush is not terminal in the source.  Serialize
changes neither the counter nor the segment contents, it only rewrites the
classification field, and both Add and Delete remain available afterwards
with exactly the outcome they would have had before the flush. -/
theorem serialize_not_terminal (budget : Nat) (source : VectorSource)
    (ws us : Status) (s : MemTableFileState) (doc_id : Int) :
    (MemTableFile.Serialize ws us s).2.current_mem = s.current_mem ∧
    (MemTableFile.Serialize ws us s).2.segment = s.segment ∧
    (MemTableFile.Delete (MemTableFile.Serialize ws us s).2 doc_id).1 = Status.ok ∧
    (MemTableFile.Delete (MemTableFile.Serialize ws us s).2 doc_id).2.segment =
      (MemTableFile.Delete s doc_id).2.segment ∧
    (MemTableFile.Add budget source (MemTableFile.Serialize ws us s).2).1 =
      (MemTableFile.Add budget source s).1 ∧
    (MemTableFile.Add budget source (MemTableFile.Serialize ws us s).2).2.current_mem =
      (MemTableFile.Add budget source s).2.current_mem ∧
    (MemTableFile.Add budget source (MemTableFile.Serialize ws us s).2).2.segment =
      (MemTableFile.Add budget source s).2.segment := by
  have hdim : (MemTableFile.Serialize ws us s).2.table_file_schema.dimension =
      s.table_file_schema.dimension := rfl
  have hcur : (MemTableFile.Serialize ws us s).2.current_mem = s.current_mem := rfl
  have hseg : (MemTableFile.Serialize ws us s).2.segment = s.segment := rfl
  refine ⟨rfl, rfl, rfl, rfl, ?_, ?_, ?_⟩ <;>
  · unfold MemTableFile.Add MemTableFile.GetMemLeft
    simp only [hdim, hcur, hseg]
    split_ifs <;> rfl

/-- Add never changes the schema record. -/
theorem add_preserves_schema (budget : Nat) (source : VectorSource)
    (s : MemTableFileState) :
    (MemTableFile.Add budget source s).2.table_file_schema = s.table_file_schema := by
  unfold MemTableFile.Add
  dsimp only
  split_ifs <;> rfl

/-- The counter after one Add call: either unchanged, or advanced by the
admitted count times the per-vector size under the capacity guard. -/
theorem add_current_mem_cases (budget : Nat) (source : VectorSource)
    (s : MemTableFileState) :
    (MemTableFile.Add budget source s).2.current_mem = s.current_mem ∨
    ((MemTableFile.Add budget source s).2.current_mem =
        (s.current_mem +
          (source.Add
              (NumVectorsToAdd (MemTableFile.GetMemLeft budget s)
                (source.SingleVectorSize s.table_file_schema.dimension))
              s.segment).num_vectors_added *
            source.SingleVectorSize s.table_file_schema.dimension) % SIZE_T_MOD ∧
      source.SingleVectorSize s.table_file_schema.dimension ≤
        MemTableFile.GetMemLeft budget s) := by
  unfold MemTableFile.Add
  dsimp only
  split_ifs with h1 h2 h3
  · exact Or.inl rfl
  · exact Or.inr ⟨rfl, h2⟩
  · exact Or.inl rfl
  · exact Or.inl rfl

/-- One Add call keeps the counter within the budget whenever the source
admits at most the requested count. -/
theorem add_step_le_budget (budget : Nat) (source : VectorSource)
    (s : MemTableFileState) (hb : budget < SIZE_T_MOD)
    (hs : s.current_mem ≤ budget)
    (hsrc : ∀ n seg, (source.Add n seg).num_vectors_added ≤ n) :
    (MemTableFile.Add budget source s).2.current_mem ≤ budget := by
  rcases add_current_mem_cases budget source s with h | ⟨h, _⟩
  · omega
  · have hml := getMemLeft_eq_sub budget s hs hb
    have hnum := hsrc
      (MemTableFile.GetMemLeft budget s /
        source.SingleVectorSize s.table_file_schema.dimension) s.segment
    have hmul :
        (source.Add
            (MemTableFile.GetMemLeft budget s /
              source.SingleVectorSize s.table_file_schema.dimension)
            s.segment).num_vectors_added *
          source.SingleVectorSize s.table_file_schema.dimension ≤
        MemTableFile.GetMemLeft budget s :=
      le_trans (Nat.mul_le_mul_right _ hnum) (Nat.div_mul_le_self _ _)
    rw [h, numVectorsToAdd_eq_div]
    have hle : s.current_mem +
        (source.Add
            (MemTableFile.GetMemLeft budget s /
              source.SingleVectorSize s.table_file_schema.dimension)
            s.segment).num_vectors_added *
          source.SingleVectorSize s.table_file_schema.dimension ≤ budget := by
      omega
    rw [Nat.mod_eq_of_lt (lt_of_le_of_lt hle hb)]
    exact hle

/-- Any sequence of Add calls from a state within budget stays within
budget, provided every source admits at most what is requested of it. -/
theorem runAdds_le_budget (budget dimension : Nat) :
    ∀ (calls : List VectorSource) (s : MemTableFileState),
      budget < SIZE_T_MOD → s.current_mem ≤ budget →
      (∀ source ∈ calls, WellBehavedSource dimension source) →
      (RunAdds budget calls s).current_mem ≤ budget := by
  intro calls
  induction calls with
  | nil => intro s _ hs _; exact hs
  | cons c t ih =>
      intro s hb hs hw
      exact ih (MemTableFile.Add budget c s).2 hb
        (add_step_le_budget budget c s hb hs (hw c (by simp)).2)
        (fun source h => hw source (by simp [h]))

/-- Claim C1: over every sequence of Add calls on a freshly constructed
buffer with positive dimension, the byte counter stays at or below the
configured budget after every call, as long as each source admits at most
the requested count (and charges at least one byte per vector). -/
theorem add_sequence_within_budget (budget : Nat) (schema : TableFileSchema)
    (calls : List VectorSource) (n : Nat) (hb : budget < SIZE_T_MOD)
    (_hdim : 0 < schema.dimension)
    (hcalls : ∀ source ∈ calls, WellBehavedSource schema.dimension source) :
    MemTableFile.GetCurrentMem
        (RunAdds budget (calls.take n) (MemTableFile.init schema)) ≤ budget :=
  runAdds_le_budget budget schema.dimension (calls.take n) (MemTableFile.init schema)
    hb (Nat.zero_le _)
    (fun source h => hcalls source ((List.take_sublist n calls).subset h))

/-- The concrete source okSource is well behaved at dimension 4. -/
theorem okSource_wellBehaved : WellBehavedSource 4 okSource :=
  ⟨by decide, fun n _ => Nat.le_refl n⟩

/-- Witness for claim C1: three greedy 16-byte-per-vector admissions into
a 64-byte budget never leave the counter above 64. -/
theorem add_sequence_within_budget_witness :
    MemTableFile.GetCurrentMem
        (RunAdds 64 ([okSource, okSource, okSource].take 3)
          (MemTableFile.init (exampleSchema 4 EngineType.FAISS_IVFFLAT MetricType.L2 1000))) ≤ 64 :=
  add_sequence_within_budget 64 (exampleSchema 4 EngineType.FAISS_IVFFLAT MetricType.L2 1000)
    [okSource, okSource, okSource] 3 (by decide) (by decide)
    (fun source h => by
      simp only [List.mem_cons, List.not_mem_nil, or_false] at h
      rcases h with rfl | rfl | rfl <;> exact okSource_wellBehaved)

/-- Claim C2: under the capacity guard the count requested from the source
is exactly the floor of remaining over per-vector size (the ceil in the
source sits on an already-truncated integer quotient and is the identity),
and consequently, when the source admits at most what is requested, the
counter advances by at most that floor times the per-vector size. -/
theorem add_requests_floor (budget : Nat) (source : VectorSource)
    (s : MemTableFileState) (hdim : s.table_file_schema.dimension ≠ 0)
    (hcur : s.current_mem < SIZE_T_MOD)
    (hcap : source.SingleVectorSize s.table_file_schema.dimension ≤
      MemTableFile.GetMemLeft budget s)
    (hsrc : ∀ n seg, (source.Add n seg).num_vectors_added ≤ n) :
    NumVectorsToAdd (MemTableFile.GetMemLeft budget s)
        (source.SingleVectorSize s.table_file_schema.dimension) =
      MemTableFile.GetMemLeft budget s /
        source.SingleVectorSize s.table_file_schema.dimension ∧
    ∃ k ≤ MemTableFile.GetMemLeft budget s /
        source.SingleVectorSize s.table_file_schema.dimension,
      (MemTableFile.Add budget source s).2.current_mem =
        (s.current_mem +
          k * source.SingleVectorSize s.table_file_schema.dimension) % SIZE_T_MOD := by
  refine ⟨numVectorsToAdd_eq_div _ _, ?_⟩
  by_cases hok :
    (source.Add
        (NumVectorsToAdd (MemTableFile.GetMemLeft budget s)
          (source.SingleVectorSize s.table_file_schema.dimension))
        s.segment).status.IsOk = true
  · refine ⟨(source.Add
        (NumVectorsToAdd (MemTableFile.GetMemLeft budget s)
          (source.SingleVectorSize s.table_file_schema.dimension))
        s.segment).num_vectors_added, ?_, ?_⟩
    · rw [numVectorsToAdd_eq_div]
      exact hsrc _ _
    · simp [MemTableFile.Add, hdim, hcap, hok]
  · refine ⟨0, Nat.zero_le _, ?_⟩
    simp [MemTableFile.Add, hdim, hcap, hok, Nat.mod_eq_of_lt hcur]

/-- A buffer over a 4-dimensional standard-metric table with 30 of 100
budget bytes already counted. -/
def partiallyFilledState : MemTableFileState :=
  { table_file_schema := exampleSchema 4 EngineType.FAISS_IVFFLAT MetricType.L2 1000
    current_mem := 30
    segment := { vectors := [], deleted_docs := [] } }

/-- Witness for claim C2 on a concrete buffer: 70 remaining bytes at 16
bytes per vector request exactly 4 vectors. -/
theorem add_requests_floor_witness :
    NumVectorsToAdd (MemTableFile.GetMemLeft 100 partiallyFilledState)
        (okSource.SingleVectorSize partiallyFilledState.table_file_schema.dimension) =
      MemTableFile.GetMemLeft 100 partiallyFilledState /
        okSource.SingleVectorSize partiallyFilledState.table_file_schema.dimension ∧
    ∃ k ≤ MemTableFile.GetMemLeft 100 partiallyFilledState /
        okSource.SingleVectorSize partiallyFilledState.table_file_schema.dimension,
      (MemTableFile.Add 100 okSource partiallyFilledState).2.current_mem =
        (partiallyFilledState.current_mem +
          k * okSource.SingleVectorSize
            partiallyFilledState.table_file_schema.dimension) % SIZE_T_MOD :=
  add_requests_floor 100 okSource partiallyFilledState (by decide) (by decide)
    (by decide) (fun n _ => Nat.le_refl n)

/-- A group whose id list does not hold the id is returned unchanged by
the erase step. -/
theorem deleteFromBuffer_not_mem (vector_type_size : Nat) (doc_id : Int)
    (buf : VectorsBuffer) (h : doc_id ∉ buf.uids) :
    DeleteFromBuffer vector_type_size doc_id buf = buf := by
  have hidx : buf.uids.indexOf doc_id = buf.uids.length :=
    List.indexOf_eq_length.mpr h
  unfold DeleteFromBuffer
  dsimp only
  rw [hidx, if_neg (lt_irrefl _)]

/-- The erase step removes exactly one id from a group that holds the id. -/
theorem deleteFromBuffer_uids_length (vector_type_size : Nat) (doc_id : Int)
    (buf : VectorsBuffer) (h : doc_id ∈ buf.uids) :
    (DeleteFromBuffer vector_type_size doc_id buf).uids.length =
      buf.uids.length - 1 := by
  have hidx : buf.uids.indexOf doc_id < buf.uids.length :=
    List.indexOf_lt_length.mpr h
  unfold DeleteFromBuffer
  dsimp only
  rw [if_pos hidx]
  dsimp only
  rw [List.length_eraseIdx]
  simp [hidx]

/-- The erase step removes exactly one payload entry (vector_type_size
bytes) from a well-formed group that holds the id. -/
theorem deleteFromBuffer_data_length (vector_type_size : Nat) (doc_id : Int)
    (buf : VectorsBuffer) (h : doc_id ∈ buf.uids)
    (hw : buf.data.length = buf.uids.length * vector_type_size) :
    (DeleteFromBuffer vector_type_size doc_id buf).data.length =
      buf.data.length - vector_type_size := by
  have hidx : buf.uids.indexOf doc_id < buf.uids.length :=
    List.indexOf_lt_length.mpr h
  have hbound : (buf.uids.indexOf doc_id + 1) * vector_type_size ≤
      buf.uids.length * vector_type_size :=
    Nat.mul_le_mul_right _ (Nat.succ_le_of_lt hidx)
  rw [Nat.succ_mul] at hbound
  unfold DeleteFromBuffer
  dsimp only
  rw [if_pos hidx]
  dsimp only
  simp only [List.length_append, List.length_take, List.length_drop]
  omega

/-- Mapping the erase step over groups none of which hold the id is the
identity. -/
theorem delete_map_eq_self (vector_type_size : Nat) (doc_id : Int)
    (l : List (String × VectorsBuffer)) (h : ∀ g ∈ l, doc_id ∉ g.2.uids) :
    (l.map fun g => (g.1, DeleteFromBuffer vector_type_size doc_id g.2)) = l := by
  conv_rhs => rw [← List.map_id l]
  refine List.map_congr_left ?_
  intro g hg
  rw [deleteFromBuffer_not_mem _ _ _ (h g hg)]
  rfl

/-- A list with at most one element satisfying a predicate, and at least
one, splits around that unique element. -/
theorem exists_unique_split (p : String × VectorsBuffer → Bool) :
    ∀ (l : List (String × VectorsBuffer)), (∃ x ∈ l, p x) → l.countP p ≤ 1 →
      ∃ l₁ x l₂, l = l₁ ++ x :: l₂ ∧ p x ∧
        (∀ y ∈ l₁, ¬ p y) ∧ (∀ y ∈ l₂, ¬ p y) := by
  intro l
  induction l with
  | nil =>
      rintro ⟨x, hx, _⟩ _
      exact absurd hx (List.not_mem_nil x)
  | cons a t ih =>
      intro hex hcount
      by_cases hpa : p a
      · have ht : t.countP p = 0 := by
          have := List.countP_cons_of_pos p t hpa
          omega
        refine ⟨[], a, t, rfl, hpa, ?_, ?_⟩
        · intro y hy
          exact absurd hy (List.not_mem_nil y)
        · intro y hy
          simpa using List.countP_eq_zero.mp ht y hy
      · have hex2 : ∃ x ∈ t, p x := by
          rcases hex with ⟨x, hx, hpx⟩
          rcases List.mem_cons.mp hx with rfl | hxt
          · exact absurd hpx hpa
          · exact ⟨x, hxt, hpx⟩
        have hcount2 : t.countP p ≤ 1 := by
          have := List.countP_cons_of_neg p t hpa
          omega
        obtain ⟨l₁, x, l₂, heq, hpx, h₁, h₂⟩ := ih hex2 hcount2
        refine ⟨a :: l₁, x, l₂, by rw [heq]; rfl, hpx, ?_, h₂⟩
        intro y hy
        rcases List.mem_cons.mp hy with rfl | hyl
        · exact hpa
        · exact h₁ y hyl

/-- Claim C5: Delete always returns success and appends exactly one
tombstone; when the id is absent from the live buffer nothing else is
mutated, and when it is present (in its unique owning group) exactly one
id and exactly one payload entry are removed from that group while every
other group is kept verbatim. -/
theorem delete_behavior (s : MemTableFileState) (doc_id : Int)
    (hw : ∀ g ∈ s.segment.vectors,
      g.2.data.length = g.2.uids.length * VectorTypeSize s.table_file_schema.metric_type)
    (huniq : s.segment.vectors.countP (fun g => decide (doc_id ∈ g.2.uids)) ≤ 1) :
    (MemTableFile.Delete s doc_id).1 = Status.ok ∧
    (MemTableFile.Delete s doc_id).2.segment.deleted_docs =
      s.segment.deleted_docs ++ [doc_id] ∧
    ((∀ g ∈ s.segment.vectors, doc_id ∉ g.2.uids) →
      (MemTableFile.Delete s doc_id).2.segment.vectors = s.segment.vectors) ∧
    ((∃ g ∈ s.segment.vectors, doc_id ∈ g.2.uids) →
      ∃ pre key buf post,
        s.segment.vectors = pre ++ (key, buf) :: post ∧
        doc_id ∈ buf.uids ∧
        (∀ g ∈ pre, doc_id ∉ g.2.uids) ∧
        (∀ g ∈ post, doc_id ∉ g.2.uids) ∧
        (MemTableFile.Delete s doc_id).2.segment.vectors =
          pre ++ (key, DeleteFromBuffer (VectorTypeSize s.table_file_schema.metric_type)
            doc_id buf) :: post ∧
        (DeleteFromBuffer (VectorTypeSize s.table_file_schema.metric_type)
            doc_id buf).uids.length = buf.uids.length - 1 ∧
        (DeleteFromBuffer (VectorTypeSize s.table_file_schema.metric_type)
            doc_id buf).data.length =
          buf.data.length - VectorTypeSize s.table_file_schema.metric_type) := by
  refine ⟨rfl, rfl, ?_, ?_⟩
  · intro h
    exact delete_map_eq_self _ _ _ h
  · intro hex
    have hex2 : ∃ x ∈ s.segment.vectors, (fun g => decide (doc_id ∈ g.2.uids)) x := by
      rcases hex with ⟨g, hg, hmem⟩
      exact ⟨g, hg, decide_eq_true hmem⟩
    obtain ⟨pre, x, post, heq, hpx, h₁, h₂⟩ :=
      exists_unique_split (fun g => decide (doc_id ∈ g.2.uids)) s.segment.vectors hex2 huniq
    obtain ⟨key, buf⟩ := x
    have hmem : doc_id ∈ buf.uids := of_decide_eq_true hpx
    have hpre : ∀ g ∈ pre, doc_id ∉ g.2.uids :=
      fun g hg hmemg => h₁ g hg (decide_eq_true hmemg)
    have hpost : ∀ g ∈ post, doc_id ∉ g.2.uids :=
      fun g hg hmemg => h₂ g hg (decide_eq_true hmemg)
    have hbufmem : (key, buf) ∈ s.segment.vectors := by
      rw [heq]
      exact List.mem_append_right _ (List.mem_cons_self _ _)
    refine ⟨pre, key, buf, post, heq, hmem, hpre, hpost, ?_,
      deleteFromBuffer_uids_length _ _ _ hmem,
      deleteFromBuffer_data_length _ _ _ hmem (hw (key, buf) hbufmem)⟩
    show (s.segment.vectors.map fun g =>
        (g.1, DeleteFromBuffer (VectorTypeSize s.table_file_schema.metric_type) doc_id g.2)) =
      pre ++ (key, DeleteFromBuffer (VectorTypeSize s.table_file_schema.metric_type)
        doc_id buf) :: post
    rw [heq, List.map_append, List.map_cons,
      delete_map_eq_self _ _ pre hpre, delete_map_eq_self _ _ post hpost]

/-- Witness for claim C5 on a concrete two-vector buffer: deleting the
present id 3 returns success and appends one tombstone. -/
theorem delete_behavior_witness :
    (MemTableFile.Delete twoVectorState 3).1 = Status.ok ∧
    (MemTableFile.Delete twoVectorState 3).2.segment.deleted_docs =
      twoVectorState.segment.deleted_docs ++ [3] := by
  have h := delete_behavior twoVectorState 3 (by decide) (by decide)
  exact ⟨h.1, h.2.1⟩
